import Mathlib

/-!
# Verification of the realtime_whiteboard ML-shapes pipeline

A shallow embedding, in Lean 4, of the stroke synthesis / augmentation /
validation / refinement core of the `realtime_whiteboard` repository:

* `ml_shapes/api/detection_service.py` — `ShapeRefinementService`
  (`refine_rectangle`, `refine_line`, `refine_triangle`, `_triangle_area`);
* `ml_shapes/training/dataset_manager.py` — `DatasetValidator`
  (`validate_stroke`, `validate_dataset_balance`);
* `ml_shapes/training/data_generation_system.py` — `HighQualityShapeGenerator`
  (`generate_shape` and the four implemented sub-style generators, the six
  stub generators, `_add_human_variations`) and `RealWorldDataAugmenter`
  (`augment_stroke`, `_add_gaps`).

Coordinates handled by the refinement service are embedded as exact rationals
(`ℚ × ℚ`), so that the combinatorial triangle search and the bounding-box
computation are executable and decidable.  The training-side geometry, which
draws real-valued random parameters and uses square roots and trigonometric
functions, is embedded over `ℝ`; Python's `random.uniform`/`random.randint`/
`random.choice` draws and NumPy's normal draws are supplied by explicit
oracle parameters, so every theorem quantifies over all possible draws.
-/

namespace RealtimeWhiteboard

/-- 2-D point with exact rational coordinates (refinement service side). -/
abbrev Q2 : Type := ℚ × ℚ

/-- 2-D point with real coordinates (training / generation side). -/
abbrev R2 : Type := ℝ × ℝ

/-! ## Column-wise minimum / maximum

`np.min(points, axis=0)` and `np.max(points, axis=0)` reduce a nonempty
array along an axis; on an empty list we return `0` (NumPy would raise,
and every caller in the source guards the empty case first). -/

/-- Minimum of a list of coordinates (`np.min` along an axis). -/
def colMin {α : Type*} [LinearOrder α] [Zero α] : List α → α
  | [] => 0
  | x :: xs => xs.foldl min x

/-- Maximum of a list of coordinates (`np.max` along an axis). -/
def colMax {α : Type*} [LinearOrder α] [Zero α] : List α → α
  | [] => 0
  | x :: xs => xs.foldl max x

theorem foldl_min_le_init {α : Type*} [LinearOrder α] (xs : List α) (x : α) :
    xs.foldl min x ≤ x := by
  induction xs generalizing x with
  | nil => exact le_refl x
  | cons a l ih => exact le_trans (ih (min x a)) (min_le_left x a)

theorem foldl_min_le_mem {α : Type*} [LinearOrder α] (xs : List α) (x : α) :
    ∀ y ∈ xs, xs.foldl min x ≤ y := by
  induction xs generalizing x with
  | nil => intro y hy; cases hy
  | cons a l ih =>
    intro y hy
    rcases List.mem_cons.mp hy with rfl | hy
    · exact le_trans (foldl_min_le_init l (min x y)) (min_le_right x y)
    · exact ih (min x a) y hy

theorem foldl_min_mem {α : Type*} [LinearOrder α] (xs : List α) (x : α) :
    xs.foldl min x = x ∨ xs.foldl min x ∈ xs := by
  induction xs generalizing x with
  | nil => exact Or.inl rfl
  | cons a l ih =>
    rcases ih (min x a) with h | h
    · rcases min_cases x a with ⟨hm, _⟩ | ⟨hm, _⟩
      · exact Or.inl (by rw [List.foldl_cons, h, hm])
      · exact Or.inr (by rw [List.foldl_cons, h, hm]; exact List.mem_cons_self a l)
    · exact Or.inr (List.mem_cons_of_mem a h)

theorem le_foldl_max_init {α : Type*} [LinearOrder α] (xs : List α) (x : α) :
    x ≤ xs.foldl max x := by
  induction xs generalizing x with
  | nil => exact le_refl x
  | cons a l ih => exact le_trans (le_max_left x a) (ih (max x a))

theorem mem_le_foldl_max {α : Type*} [LinearOrder α] (xs : List α) (x : α) :
    ∀ y ∈ xs, y ≤ xs.foldl max x := by
  induction xs generalizing x with
  | nil => intro y hy; cases hy
  | cons a l ih =>
    intro y hy
    rcases List.mem_cons.mp hy with rfl | hy
    · exact le_trans (le_max_right x y) (le_foldl_max_init l (max x y))
    · exact ih (max x a) y hy

theorem foldl_max_mem {α : Type*} [LinearOrder α] (xs : List α) (x : α) :
    xs.foldl max x = x ∨ xs.foldl max x ∈ xs := by
  induction xs generalizing x with
  | nil => exact Or.inl rfl
  | cons a l ih =>
    rcases ih (max x a) with h | h
    · rcases max_cases x a with ⟨hm, _⟩ | ⟨hm, _⟩
      · exact Or.inl (by rw [List.foldl_cons, h, hm])
      · exact Or.inr (by rw [List.foldl_cons, h, hm]; exact List.mem_cons_self a l)
    · exact Or.inr (List.mem_cons_of_mem a h)

theorem colMin_isLeast {α : Type*} [LinearOrder α] [Zero α] (x : α) (xs : List α) :
    IsLeast {y | y ∈ x :: xs} (colMin (x :: xs)) := by
  constructor
  · rcases foldl_min_mem xs x with h | h
    · simp only [Set.mem_setOf_eq, colMin, h]; exact List.mem_cons_self x xs
    · simp only [Set.mem_setOf_eq, colMin]; exact List.mem_cons_of_mem x h
  · intro y hy
    rcases List.mem_cons.mp hy with rfl | hy
    · exact foldl_min_le_init xs y
    · exact foldl_min_le_mem xs x y hy

theorem colMax_isGreatest {α : Type*} [LinearOrder α] [Zero α] (x : α) (xs : List α) :
    IsGreatest {y | y ∈ x :: xs} (colMax (x :: xs)) := by
  constructor
  · rcases foldl_max_mem xs x with h | h
    · simp only [Set.mem_setOf_eq, colMax, h]; exact List.mem_cons_self x xs
    · simp only [Set.mem_setOf_eq, colMax]; exact List.mem_cons_of_mem x h
  · intro y hy
    rcases List.mem_cons.mp hy with rfl | hy
    · exact le_foldl_max_init xs y
    · exact mem_le_foldl_max xs x y hy

/-! ## Shape refinement service (`ml_shapes/api/detection_service.py`) -/

namespace Detection

/-- `ShapeRefinementService.refine_rectangle`: the axis-aligned bounding box
of the input, as a closed 5-point loop; an empty input is returned as is. -/
def refine_rectangle (points : List Q2) : List Q2 :=
  if points.length = 0 then points
  else
    let min_x := colMin (points.map Prod.fst)
    let min_y := colMin (points.map Prod.snd)
    let max_x := colMax (points.map Prod.fst)
    let max_y := colMax (points.map Prod.snd)
    [(min_x, min_y), (max_x, min_y), (max_x, max_y), (min_x, max_y), (min_x, min_y)]

/-- `ShapeRefinementService.refine_line`: first and last input point;
inputs with fewer than 2 points are returned as is. -/
def refine_line (points : List Q2) : List Q2 :=
  if points.length < 2 then points
  else [points.headD (0, 0), points.getLastD (0, 0)]

/-- `ShapeRefinementService._triangle_area`: `0.5 * |np.cross(p1-p0, p2-p0)|`. -/
def triangle_area (p0 p1 p2 : Q2) : ℚ :=
  (1 / 2) * |(p1.1 - p0.1) * (p2.2 - p0.2) - (p1.2 - p0.2) * (p2.1 - p0.1)|

/-- The index list `np.linspace(0, n-1, min(n, 20), dtype=int)` used by
`refine_triangle` to sample at most 20 points (integer truncation). -/
def sample_indices (n : ℕ) : List ℕ :=
  if n ≤ 20 then List.range n
  else (List.range 20).map fun i => i * (n - 1) / 19

/-- The sampled subset `points[indices]` of the input. -/
def sample_points (points : List Q2) : List Q2 :=
  (sample_indices points.length).map fun i => points.getD i (0, 0)

/-- All index triples `i < j < k` below `n`, in the iteration order of the
three nested Python loops (lexicographic). -/
def triples (n : ℕ) : List (ℕ × ℕ × ℕ) :=
  ((List.range n).flatMap fun i =>
    (List.range n).flatMap fun j =>
      (List.range n).map fun k => (i, j, k)).filter
    fun t => decide (t.1 < t.2.1) && decide (t.2.1 < t.2.2)

/-- The candidate triangle `sample_points[[i, j, k]]` at an index triple. -/
def tri_of (pts : List Q2) (t : ℕ × ℕ × ℕ) : Q2 × Q2 × Q2 :=
  (pts.getD t.1 (0, 0), pts.getD t.2.1 (0, 0), pts.getD t.2.2 (0, 0))

/-- Area of the candidate triangle at an index triple. -/
def area_of (pts : List Q2) (t : ℕ × ℕ × ℕ) : ℚ :=
  triangle_area (tri_of pts t).1 (tri_of pts t).2.1 (tri_of pts t).2.2

/-- Loop body of the exhaustive search: keep the candidate when its area
strictly exceeds the running maximum (`if area > max_area`). -/
def best_step (pts : List Q2) (st : ℚ × (Q2 × Q2 × Q2)) (t : ℕ × ℕ × ℕ) :
    ℚ × (Q2 × Q2 × Q2) :=
  if area_of pts t > st.1 then (area_of pts t, tri_of pts t) else st

/-- `ShapeRefinementService.refine_triangle`: sample at most 20 points,
search all triples for the maximum-area triangle (starting from
`max_area = 0`, `best_triangle = points[:3]`), close the winner. -/
def refine_triangle (points : List Q2) : List Q2 :=
  if points.length < 3 then points
  else
    let sample := sample_points points
    let init : ℚ × (Q2 × Q2 × Q2) :=
      (0, (points.getD 0 (0, 0), points.getD 1 (0, 0), points.getD 2 (0, 0)))
    let best := ((triples sample.length).foldl (best_step sample) init).2
    [best.1, best.2.1, best.2.2, best.1]

theorem mem_triples {n i j k : ℕ} :
    (i, j, k) ∈ triples n ↔ i < j ∧ j < k ∧ k < n := by
  simp only [triples, List.mem_filter, List.mem_flatMap, List.mem_map,
    List.mem_range, Bool.and_eq_true, decide_eq_true_eq]
  constructor
  · rintro ⟨⟨i', hi, j', hj, k', hk, h⟩, h1, h2⟩
    simp only [Prod.mk.injEq] at h
    obtain ⟨rfl, rfl, rfl⟩ := h
    exact ⟨h1, h2, hk⟩
  · rintro ⟨h1, h2, h3⟩
    exact ⟨⟨i, lt_trans h1 (lt_trans h2 h3), j, lt_trans h2 h3, k, h3, rfl⟩, h1, h2⟩

theorem getD_mem_of_lt {l : List Q2} {i : ℕ} (h : i < l.length) (d : Q2) :
    l.getD i d ∈ l := by
  rw [List.getD_eq_getElem l d h]
  exact List.getElem_mem h

/-- C5 counterexample: on the empty point set, `refine_rectangle` returns the
empty list unchanged — not a closed 5-point loop. -/
theorem refine_rectangle_empty_cex :
    refine_rectangle ([] : List Q2) = [] ∧
      (refine_rectangle ([] : List Q2)).length ≠ 5 := by
  constructor
  · rfl
  · decide

/-- C5 (amended): on every nonempty point set, `refine_rectangle` returns
exactly 5 points, closed (`result[0] = result[-1]`), whose corners are the
axis-aligned bounding box — least/greatest x- and y-coordinates of the
input — listed as top-left, top-right, bottom-right, bottom-left, close
(the source labels `min_y` as "top"). -/
theorem refine_rectangle_bbox (p : Q2) (ps : List Q2) :
    ∃ a b c d : ℚ,
      refine_rectangle (p :: ps) = [(a, b), (c, b), (c, d), (a, d), (a, b)] ∧
      (refine_rectangle (p :: ps)).length = 5 ∧
      (refine_rectangle (p :: ps)).headD (0, 0) =
        (refine_rectangle (p :: ps)).getLastD (0, 0) ∧
      IsLeast {x | x ∈ (p :: ps).map Prod.fst} a ∧
      IsGreatest {x | x ∈ (p :: ps).map Prod.fst} c ∧
      IsLeast {y | y ∈ (p :: ps).map Prod.snd} b ∧
      IsGreatest {y | y ∈ (p :: ps).map Prod.snd} d := by
  refine ⟨colMin ((p :: ps).map Prod.fst), colMin ((p :: ps).map Prod.snd),
    colMax ((p :: ps).map Prod.fst), colMax ((p :: ps).map Prod.snd), ?_, ?_, ?_, ?_, ?_, ?_, ?_⟩
  · simp [refine_rectangle]
  · simp [refine_rectangle]
  · simp [refine_rectangle]
  · exact List.map_cons Prod.fst p ps ▸ colMin_isLeast p.1 (ps.map Prod.fst)
  · exact List.map_cons Prod.fst p ps ▸ colMax_isGreatest p.1 (ps.map Prod.fst)
  · exact List.map_cons Prod.snd p ps ▸ colMin_isLeast p.2 (ps.map Prod.snd)
  · exact List.map_cons Prod.snd p ps ▸ colMax_isGreatest p.2 (ps.map Prod.snd)

/-- C5 witness: a concrete nonempty input evaluating the amended statement. -/
theorem refine_rectangle_bbox_witness :
    ∃ a b c d : ℚ,
      refine_rectangle [((1 : ℚ), (2 : ℚ)), (3, 0)] = [(a, b), (c, b), (c, d), (a, d), (a, b)] ∧
      (refine_rectangle [((1 : ℚ), (2 : ℚ)), (3, 0)]).length = 5 ∧
      (refine_rectangle [((1 : ℚ), (2 : ℚ)), (3, 0)]).headD (0, 0) =
        (refine_rectangle [((1 : ℚ), (2 : ℚ)), (3, 0)]).getLastD (0, 0) ∧
      IsLeast {x | x ∈ ([((1 : ℚ), (2 : ℚ)), (3, 0)]).map Prod.fst} a ∧
      IsGreatest {x | x ∈ ([((1 : ℚ), (2 : ℚ)), (3, 0)]).map Prod.fst} c ∧
      IsLeast {y | y ∈ ([((1 : ℚ), (2 : ℚ)), (3, 0)]).map Prod.snd} b ∧
      IsGreatest {y | y ∈ ([((1 : ℚ), (2 : ℚ)), (3, 0)]).map Prod.snd} d :=
  refine_rectangle_bbox ((1 : ℚ), (2 : ℚ)) [(3, 0)]

/-- C9: `refine_line` collapses any input with at least two points to
exactly its first and last point (no interpolation), and returns inputs
with fewer than two points unchanged. -/
theorem refine_line_first_last :
    (∀ (p q : Q2) (l : List Q2),
      refine_line (p :: q :: l) = [p, (p :: q :: l).getLastD (0, 0)]) ∧
    (∀ p : Q2, refine_line [p] = [p]) ∧
    refine_line ([] : List Q2) = [] := by
  refine ⟨fun p q l => ?_, fun p => rfl, rfl⟩
  simp [refine_line]

/-! ### The maximum-area fold of `refine_triangle` -/

theorem foldl_best_step_spec (pts : List Q2) (L : List (ℕ × ℕ × ℕ))
    (st : ℚ × (Q2 × Q2 × Q2)) :
    st.1 ≤ (L.foldl (best_step pts) st).1 ∧
    (∀ t ∈ L, area_of pts t ≤ (L.foldl (best_step pts) st).1) ∧
    (L.foldl (best_step pts) st = st ∨
      ∃ t ∈ L, (L.foldl (best_step pts) st).2 = tri_of pts t ∧
        (L.foldl (best_step pts) st).1 = area_of pts t) := by
  induction L generalizing st with
  | nil => exact ⟨le_refl _, fun t ht => absurd ht (List.not_mem_nil t), Or.inl rfl⟩
  | cons a L ih =>
    have hstep : st.1 ≤ (best_step pts st a).1 ∧ area_of pts a ≤ (best_step pts st a).1 := by
      unfold best_step
      split
      · exact ⟨le_of_lt (by assumption), le_refl _⟩
      · exact ⟨le_refl _, le_of_not_lt (by assumption)⟩
    obtain ⟨ih1, ih2, ih3⟩ := ih (best_step pts st a)
    rw [List.foldl_cons]
    refine ⟨le_trans hstep.1 ih1, ?_, ?_⟩
    · intro t ht
      rcases List.mem_cons.mp ht with rfl | ht
      · exact le_trans hstep.2 ih1
      · exact ih2 t ht
    · rcases ih3 with h | ⟨t, ht, h1, h2⟩
      · rw [h]
        unfold best_step
        split
        · exact Or.inr ⟨a, List.mem_cons_self a L, rfl, rfl⟩
        · exact Or.inl rfl
      · exact Or.inr ⟨t, List.mem_cons_of_mem a ht, h1, h2⟩

theorem foldl_best_step_frozen (pts : List Q2) (L : List (ℕ × ℕ × ℕ))
    (c : ℚ) (b : Q2 × Q2 × Q2) (h : ∀ t ∈ L, area_of pts t ≤ c) :
    L.foldl (best_step pts) (c, b) = (c, b) := by
  induction L with
  | nil => rfl
  | cons a L ih =>
    rw [List.foldl_cons]
    have ha : ¬ area_of pts a > (c, b).1 := not_lt.mpr (h a (List.mem_cons_self a L))
    rw [best_step, if_neg ha]
    exact ih fun t ht => h t (List.mem_cons_of_mem a ht)

theorem triangle_area_nonneg (p0 p1 p2 : Q2) : 0 ≤ triangle_area p0 p1 p2 := by
  unfold triangle_area
  positivity

theorem triangle_area_of_collinear_snd {p0 p1 p2 : Q2}
    (h0 : p0.2 = 0) (h1 : p1.2 = 0) (h2 : p2.2 = 0) :
    triangle_area p0 p1 p2 = 0 := by
  simp [triangle_area, h0, h1, h2]

/-- C3 (amended): for at least 3 input points, `refine_triangle` returns a
closed 4-point triangle whose area is at least the area of every ordered
triple `i < j < k` of the (≤ 20-point) index-sampled subset; its vertices
are such a sampled triple **unless** every sampled triple has zero area, in
which case they are exactly the first three points of the raw input (which,
for inputs of more than 20 points, need not belong to the sampled subset).
Inputs with fewer than 3 points are returned unchanged. -/
theorem refine_triangle_spec (P : List Q2) :
    (P.length < 3 ∧ refine_triangle P = P) ∨
    (3 ≤ P.length ∧ ∃ v0 v1 v2 : Q2,
      refine_triangle P = [v0, v1, v2, v0] ∧
      (∀ t ∈ triples (sample_points P).length,
        area_of (sample_points P) t ≤ triangle_area v0 v1 v2) ∧
      ((∃ t ∈ triples (sample_points P).length,
          0 < area_of (sample_points P) t) →
        ∃ t ∈ triples (sample_points P).length,
          (v0, v1, v2) = tri_of (sample_points P) t) ∧
      ((∀ t ∈ triples (sample_points P).length,
          area_of (sample_points P) t = 0) →
        (v0, v1, v2) = (P.getD 0 (0, 0), P.getD 1 (0, 0), P.getD 2 (0, 0)))) := by
  by_cases h3 : P.length < 3
  · exact Or.inl ⟨h3, by rw [refine_triangle, if_pos h3]⟩
  · refine Or.inr ⟨le_of_not_lt h3, ?_⟩
    obtain ⟨A, b0, b1, b2, hfold⟩ : ∃ A b0 b1 b2,
        (triples (sample_points P).length).foldl (best_step (sample_points P))
          ((0 : ℚ), (P.getD 0 (0, 0), P.getD 1 (0, 0), P.getD 2 (0, 0))) =
          (A, (b0, b1, b2)) :=
      ⟨_, _, _, _, rfl⟩
    obtain ⟨hr0, hrmax, hrcases⟩ :=
      foldl_best_step_spec (sample_points P) (triples (sample_points P).length)
        ((0 : ℚ), (P.getD 0 (0, 0), P.getD 1 (0, 0), P.getD 2 (0, 0)))
    rw [hfold] at hr0 hrmax hrcases
    refine ⟨b0, b1, b2, ?_, ?_, ?_, ?_⟩
    · rw [refine_triangle, if_neg h3]
      simp only [hfold]
    · intro t ht
      rcases hrcases with hcase | ⟨t', _, h1, h2⟩
      · -- the fold never updated: every sampled triple has area ≤ 0, hence = 0
        have hA : A = 0 := congrArg Prod.fst hcase
        have hle : area_of (sample_points P) t ≤ (0 : ℚ) := hA ▸ hrmax t ht
        exact le_trans hle (triangle_area_nonneg b0 b1 b2)
      · have harea : area_of (sample_points P) t' = triangle_area b0 b1 b2 := by
          rw [area_of, ← h1]
        exact le_trans (hrmax t ht) (le_of_eq (h2.trans harea))
    · -- some sampled triple has positive area: the strict update must have
      -- fired, so the result is a sampled triple
      rintro ⟨t0, ht0, hpos⟩
      rcases hrcases with hcase | ⟨t', ht', h1, _⟩
      · have hA : A = 0 := congrArg Prod.fst hcase
        have hle : area_of (sample_points P) t0 ≤ (0 : ℚ) := hA ▸ hrmax t0 ht0
        exact absurd hle (not_le.mpr hpos)
      · exact ⟨t', ht', h1⟩
    · -- every sampled triple is degenerate: the fold is frozen at its
      -- initialization `(0, points[:3])`
      intro hz
      have hfrozen := foldl_best_step_frozen (sample_points P)
        (triples (sample_points P).length) 0
        (P.getD 0 (0, 0), P.getD 1 (0, 0), P.getD 2 (0, 0))
        (fun t ht => le_of_eq (hz t ht))
      have : (A, (b0, b1, b2)) =
          ((0 : ℚ), (P.getD 0 (0, 0), P.getD 1 (0, 0), P.getD 2 (0, 0))) :=
        hfold.symm.trans hfrozen
      exact congrArg Prod.snd this

/-- C3 witness: a concrete 4-point input evaluated through the amended
statement (the hypothesis-free disjunction selects its second branch). -/
theorem refine_triangle_spec_witness :
    (([((0 : ℚ), (0 : ℚ)), (4, 0), (0, 4), (1, 1)] : List Q2).length < 3 ∧
      refine_triangle [((0 : ℚ), (0 : ℚ)), (4, 0), (0, 4), (1, 1)] =
        [((0 : ℚ), (0 : ℚ)), (4, 0), (0, 4), (1, 1)]) ∨
    (3 ≤ ([((0 : ℚ), (0 : ℚ)), (4, 0), (0, 4), (1, 1)] : List Q2).length ∧
      ∃ v0 v1 v2 : Q2,
      refine_triangle [((0 : ℚ), (0 : ℚ)), (4, 0), (0, 4), (1, 1)] = [v0, v1, v2, v0] ∧
      (∀ t ∈ triples (sample_points [((0 : ℚ), (0 : ℚ)), (4, 0), (0, 4), (1, 1)]).length,
        area_of (sample_points [((0 : ℚ), (0 : ℚ)), (4, 0), (0, 4), (1, 1)]) t ≤
          triangle_area v0 v1 v2) ∧
      ((∃ t ∈ triples (sample_points [((0 : ℚ), (0 : ℚ)), (4, 0), (0, 4), (1, 1)]).length,
          0 < area_of (sample_points [((0 : ℚ), (0 : ℚ)), (4, 0), (0, 4), (1, 1)]) t) →
        ∃ t ∈ triples (sample_points [((0 : ℚ), (0 : ℚ)), (4, 0), (0, 4), (1, 1)]).length,
          (v0, v1, v2) = tri_of (sample_points [((0 : ℚ), (0 : ℚ)), (4, 0), (0, 4), (1, 1)]) t) ∧
      ((∀ t ∈ triples (sample_points [((0 : ℚ), (0 : ℚ)), (4, 0), (0, 4), (1, 1)]).length,
          area_of (sample_points [((0 : ℚ), (0 : ℚ)), (4, 0), (0, 4), (1, 1)]) t = 0) →
        (v0, v1, v2) =
          (([((0 : ℚ), (0 : ℚ)), (4, 0), (0, 4), (1, 1)] : List Q2).getD 0 (0, 0),
           ([((0 : ℚ), (0 : ℚ)), (4, 0), (0, 4), (1, 1)] : List Q2).getD 1 (0, 0),
           ([((0 : ℚ), (0 : ℚ)), (4, 0), (0, 4), (1, 1)] : List Q2).getD 2 (0, 0)))) :=
  refine_triangle_spec [((0 : ℚ), (0 : ℚ)), (4, 0), (0, 4), (1, 1)]

/-- 30 collinear points `(0,0), (1,0), …, (29,0)`: more than 20 points, so
the sampled subset is proper, and every sampled triple has area 0. -/
def cexTriPts : List Q2 := (List.range 30).map fun i => ((i : ℚ), 0)

theorem cexTriPts_snd_zero : ∀ q ∈ cexTriPts, q.2 = 0 := by
  intro q hq
  obtain ⟨i, _, rfl⟩ := List.mem_map.mp hq
  rfl

theorem sample_cexTriPts_snd_zero : ∀ q ∈ sample_points cexTriPts, q.2 = 0 := by
  intro q hq
  obtain ⟨i, _, rfl⟩ := List.mem_map.mp hq
  by_cases hi : i < cexTriPts.length
  · exact cexTriPts_snd_zero _ (getD_mem_of_lt hi (0, 0))
  · rw [List.getD_eq_default _ _ (le_of_not_lt hi)]

theorem cex_areas_zero : ∀ t ∈ triples (sample_points cexTriPts).length,
    area_of (sample_points cexTriPts) t = 0 := by
  intro t ht
  obtain ⟨h1, h2, h3⟩ := mem_triples.mp (show (t.1, t.2.1, t.2.2) ∈ _ from ht)
  have hz : ∀ i, ((sample_points cexTriPts).getD i (0, 0)).2 = 0 := by
    intro i
    by_cases hi : i < (sample_points cexTriPts).length
    · exact sample_cexTriPts_snd_zero _ (getD_mem_of_lt hi (0, 0))
    · rw [List.getD_eq_default _ _ (le_of_not_lt hi)]
  exact triangle_area_of_collinear_snd (hz t.1) (hz t.2.1) (hz t.2.2)

/-- C3 counterexample: on 30 collinear points every sampled triple is
degenerate, the search keeps its initialization `points[:3]`, and the
returned vertex `(2, 0)` is not a member of the sampled subset — so the
refined triangle's vertices are *not* a triple drawn from the sampled
subset, contradicting the claim at this input. -/
theorem refine_triangle_collinear_cex :
    refine_triangle cexTriPts = [((0 : ℚ), (0 : ℚ)), (1, 0), (2, 0), (0, 0)] ∧
    ((2 : ℚ), (0 : ℚ)) ∉ sample_points cexTriPts ∧
    ¬ ∃ t ∈ triples (sample_points cexTriPts).length,
        (((0 : ℚ), (0 : ℚ)), ((1 : ℚ), (0 : ℚ)), ((2 : ℚ), (0 : ℚ))) =
          tri_of (sample_points cexTriPts) t := by
  have hmemc : ((2 : ℚ), (0 : ℚ)) ∉ sample_points cexTriPts := by decide
  have heval : refine_triangle cexTriPts = [((0 : ℚ), (0 : ℚ)), (1, 0), (2, 0), (0, 0)] := by
    have h3 : ¬ cexTriPts.length < 3 := by decide
    have hfrozen := foldl_best_step_frozen (sample_points cexTriPts)
      (triples (sample_points cexTriPts).length) 0
      (cexTriPts.getD 0 (0, 0), cexTriPts.getD 1 (0, 0), cexTriPts.getD 2 (0, 0))
      (fun t ht => le_of_eq (cex_areas_zero t ht))
    rw [refine_triangle, if_neg h3]
    simp only [hfrozen]
    decide
  refine ⟨heval, hmemc, ?_⟩
  rintro ⟨t, ht, h⟩
  obtain ⟨_, _, h3⟩ := mem_triples.mp (show (t.1, t.2.1, t.2.2) ∈ _ from ht)
  apply hmemc
  have : ((2 : ℚ), (0 : ℚ)) = (sample_points cexTriPts).getD t.2.2 (0, 0) :=
    congrArg (fun x => x.2.2) h
  rw [this]
  exact getD_mem_of_lt h3 (0, 0)

end Detection

/-! ## Training-side data model (`data_generation_system.py`)

`StrokeData` is a dataclass of a point array, a shape label and an open
metadata dict.  The metadata dict is embedded as an association list whose
values cover the scalar, string, flat-list and point-list payloads the
source stores there. -/

/-- A value stored in a stroke's metadata dict. -/
inductive MValue where
  | str (s : String)
  | num (x : ℝ)
  | nums (xs : List ℝ)
  | pts (ps : List R2)

/-- The metadata dict: string keys in insertion order. -/
abbrev Metadata : Type := List (String × MValue)

/-- `dict.get(key)`: the first value stored under `key`, if any. -/
def mget (md : Metadata) (k : String) : Option MValue :=
  (md.find? fun kv => kv.1 = k).map fun kv => kv.2

/-- `dict[key] = v`: overwrite the binding of `key`. -/
def mset (md : Metadata) (k : String) (v : MValue) : Metadata :=
  (md.filter fun kv => decide (kv.1 ≠ k)) ++ [(k, v)]

/-- `StrokeData`: container for stroke training data. -/
structure StrokeData where
  points : List R2
  shape_label : String
  metadata : Metadata

/-! ## Dataset validator (`ml_shapes/training/dataset_manager.py`)

`DatasetValidator.validate_stroke` returns a Python dict of named boolean
checks.  The geometric quantities involve square roots, so the checks are
embedded as propositions over `ℝ`; the dict's `'is_valid'` key — which the
source *omits* on the fewer-than-2-points early return — is an
`Option Prop`. -/

namespace Validator

open Classical

/-- The result dict of `validate_stroke`. -/
structure ValidationResult where
  valid_point_count : Prop
  valid_length : Prop
  valid_variation : Prop
  valid_coverage : Prop
  valid_duplicates : Prop
  is_valid : Option Prop

/-- Cumulative Euclidean path length
`np.sum(np.linalg.norm(np.diff(points, axis=0), axis=1))`. -/
noncomputable def stroke_length (points : List R2) : ℝ :=
  ((points.zip points.tail).map fun pq =>
    Real.sqrt ((pq.2.1 - pq.1.1) ^ 2 + (pq.2.2 - pq.1.2) ^ 2)).sum

/-- Arithmetic mean of a list of reals (`np.mean`); `0` on the empty list
(where NumPy would produce NaN — all callers here pass nonempty data). -/
noncomputable def listMean (l : List ℝ) : ℝ := l.sum / l.length

/-- Population standard deviation of a list of reals (`np.std`). -/
noncomputable def listStd (l : List ℝ) : ℝ :=
  Real.sqrt (listMean (l.map fun x => (x - listMean l) ^ 2))

/-- `np.std(points, axis=0).mean()`: mean of the per-axis standard
deviations. -/
noncomputable def variation (points : List R2) : ℝ :=
  (listStd (points.map Prod.fst) + listStd (points.map Prod.snd)) / 2

/-- `DatasetValidator._calculate_bbox_area`. -/
noncomputable def bbox_area (points : List R2) : ℝ :=
  if points.length = 0 then 0
  else (colMax (points.map Prod.fst) - colMin (points.map Prod.fst)) *
    (colMax (points.map Prod.snd) - colMin (points.map Prod.snd))

/-- `DatasetValidator._calculate_duplicate_ratio`: fraction of consecutive
point pairs closer than `1e-6` (counted over `len(points)`).  The count of
real-valued comparisons is expressed as a sum of indicators. -/
noncomputable def duplicate_ratio (points : List R2) : ℝ :=
  if points.length < 2 then 0
  else
    ((points.zip points.tail).map fun pq =>
      if Real.sqrt ((pq.2.1 - pq.1.1) ^ 2 + (pq.2.2 - pq.1.2) ^ 2) < 1 / 1000000
        then (1 : ℝ) else 0).sum / points.length

/-- `DatasetValidator.validate_stroke` against the fixed
`validation_rules` thresholds.  For fewer than 2 points the source
returns the five check keys (geometry checks forced to `False`) **without**
an `'is_valid'` key; otherwise `'is_valid'` is `all(results.values())`,
the conjunction of the five checks. -/
noncomputable def validate_stroke (points : List R2) : ValidationResult :=
  let cnt : Prop := 5 ≤ points.length ∧ points.length ≤ 200
  if points.length < 2 then
    { valid_point_count := cnt, valid_length := False, valid_variation := False,
      valid_coverage := False, valid_duplicates := False, is_valid := none }
  else
    let len_ok : Prop := 10 ≤ stroke_length points
    let var_ok : Prop := 2 ≤ variation points
    let cov_ok : Prop := 1 / 100 ≤ bbox_area points / (512 * 512) ∧
      bbox_area points / (512 * 512) ≤ 8 / 10
    let dup_ok : Prop := duplicate_ratio points ≤ 1 / 10
    { valid_point_count := cnt, valid_length := len_ok, valid_variation := var_ok,
      valid_coverage := cov_ok, valid_duplicates := dup_ok,
      is_valid := some (cnt ∧ len_ok ∧ var_ok ∧ cov_ok ∧ dup_ok) }

/-- On the long path the aggregate flag is present and is exactly the
conjunction of the five named checks (supporting development; the claim
about the short path is settled separately). -/
theorem validate_stroke_is_valid_of_two_le (points : List R2)
    (h : 2 ≤ points.length) :
    (validate_stroke points).is_valid =
      some ((validate_stroke points).valid_point_count ∧
        (validate_stroke points).valid_length ∧
        (validate_stroke points).valid_variation ∧
        (validate_stroke points).valid_coverage ∧
        (validate_stroke points).valid_duplicates) := by
  rw [validate_stroke, if_neg (not_lt.mpr h)]

/-- C1: evaluation at the failing input.  On a single-point stroke the
returned mapping has *no* `'is_valid'` key at all: the point-count check is
computed (and false: `1 < 5`), the four geometry checks are forced false,
but the short-circuit return omits the aggregate flag — contradicting the
claim (and crashing the sibling caller
`DatasetStorage._calculate_dataset_stats`, which indexes `['is_valid']`
unconditionally). -/
theorem validate_stroke_one_point_missing_is_valid :
    (validate_stroke [((0 : ℝ), 0)]).is_valid = none ∧
    ((validate_stroke [((0 : ℝ), 0)]).valid_point_count ↔ False) ∧
    ((validate_stroke [((0 : ℝ), 0)]).valid_length ↔ False) ∧
    ((validate_stroke [((0 : ℝ), 0)]).valid_variation ↔ False) ∧
    ((validate_stroke [((0 : ℝ), 0)]).valid_coverage ↔ False) ∧
    ((validate_stroke [((0 : ℝ), 0)]).valid_duplicates ↔ False) := by
  have h : ([((0 : ℝ), 0)] : List R2).length < 2 := by simp
  rw [validate_stroke, if_pos h]
  refine ⟨rfl, ?_, Iff.rfl, Iff.rfl, Iff.rfl, Iff.rfl⟩
  simp

end Validator

/-! ## Dataset balance validation
(`DatasetValidator.validate_dataset_balance`)

Only the shape labels of the strokes enter this computation, so it is
embedded over the list of labels; counts and proportions are exact
rationals. -/

namespace Balance

/-- The result dict of `validate_dataset_balance`.  On an empty dataset
the source returns only `balanced` and `message`; the remaining keys are
absent. -/
structure BalanceResult where
  balanced : Bool
  balance_ratio : Option ℚ
  total_samples : Option ℕ
  num_classes : Option ℕ
  message : Option String

/-- `Counter(stroke.shape_label for stroke in strokes)`: the distinct
labels with their multiplicities. -/
def class_counts (labels : List String) : List (String × ℕ) :=
  labels.dedup.map fun s => (s, labels.count s)

/-- `class_proportions`: each class count divided by the total. -/
def class_proportions (labels : List String) : List ℚ :=
  (class_counts labels).map fun kv => (kv.2 : ℚ) / labels.length

/-- `DatasetValidator.validate_dataset_balance`. -/
def validate_dataset_balance (labels : List String) : BalanceResult :=
  if labels.length = 0 then
    { balanced := false, balance_ratio := none, total_samples := none,
      num_classes := none, message := some "Empty dataset" }
  else
    let min_proportion := colMin (class_proportions labels)
    let max_proportion := colMax (class_proportions labels)
    let balance_ratio :=
      if max_proportion > 0 then min_proportion / max_proportion else 0
    { balanced := decide (balance_ratio ≥ 1 / 10),
      balance_ratio := some balance_ratio,
      total_samples := some labels.length,
      num_classes := some (class_counts labels).length,
      message := none }

/-- 10 × "circle", 1 × "square". -/
def tenToOne : List String := List.replicate 10 "circle" ++ ["square"]

/-- 9 × "circle", 1 × "square". -/
def nineToOne : List String := List.replicate 9 "circle" ++ ["square"]

/-- 11 × "circle", 1 × "square". -/
def elevenToOne : List String := List.replicate 11 "circle" ++ ["square"]

theorem balance_formula_aux (s : String) (rest : List String) :
    ∃ mn mx : ℚ,
      IsLeast {q | q ∈ class_proportions (s :: rest)} mn ∧
      IsGreatest {q | q ∈ class_proportions (s :: rest)} mx ∧
      (validate_dataset_balance (s :: rest)).balance_ratio = some (mn / mx) ∧
      ((validate_dataset_balance (s :: rest)).balanced = true ↔
        1 / 10 ≤ mn / mx) := by
  cases hcp : class_proportions (s :: rest) with
  | nil =>
    exfalso
    have hmem : s ∈ (s :: rest).dedup := List.mem_dedup.mpr (List.mem_cons_self s rest)
    have : ((s, (s :: rest).count s) : String × ℕ) ∈ class_counts (s :: rest) :=
      List.mem_map.mpr ⟨s, hmem, rfl⟩
    have hq : ((((s :: rest).count s : ℚ)) / ((s :: rest).length : ℚ)) ∈
        class_proportions (s :: rest) :=
      List.mem_map.mpr ⟨_, this, rfl⟩
    rw [hcp] at hq
    exact absurd hq (List.not_mem_nil _)
  | cons a l =>
    have hne : (s :: rest).length ≠ 0 := by simp
    have hsprop : ((((s :: rest).count s : ℚ)) / ((s :: rest).length : ℚ)) ∈
        class_proportions (s :: rest) := by
      have hmem : s ∈ (s :: rest).dedup := List.mem_dedup.mpr (List.mem_cons_self s rest)
      exact List.mem_map.mpr ⟨_, List.mem_map.mpr ⟨s, hmem, rfl⟩, rfl⟩
    have hspos : 0 < (((s :: rest).count s : ℚ)) / ((s :: rest).length : ℚ) := by
      apply div_pos
      · have : 0 < (s :: rest).count s := List.count_pos_iff.mpr (List.mem_cons_self s rest)
        exact_mod_cast this
      · have : 0 < (s :: rest).length := List.length_pos_of_ne_nil (List.cons_ne_nil s rest)
        exact_mod_cast this
    have hmax := colMax_isGreatest a l
    have hmin := colMin_isLeast a l
    have hmaxpos : 0 < colMax (class_proportions (s :: rest)) := by
      rw [hcp]
      refine lt_of_lt_of_le hspos (hmax.2 ?_)
      rw [← hcp]
      exact hsprop
    refine ⟨colMin (class_proportions (s :: rest)),
      colMax (class_proportions (s :: rest)), ?_, ?_, ?_, ?_⟩
    · rw [hcp]
      exact hmin
    · rw [hcp]
      exact hmax
    · rw [validate_dataset_balance, if_neg hne]
      show some (if colMax (class_proportions (s :: rest)) > 0 then _ else _) = _
      rw [if_pos hmaxpos]
    · rw [validate_dataset_balance, if_neg hne]
      show decide ((if colMax (class_proportions (s :: rest)) > 0 then
          colMin (class_proportions (s :: rest)) / colMax (class_proportions (s :: rest))
        else 0) ≥ 1 / 10) = true ↔ _
      rw [if_pos hmaxpos, decide_eq_true_eq]

theorem validate_dataset_balance_eval (labels : List String)
    (hne : labels.length ≠ 0) (hpos : 0 < colMax (class_proportions labels)) :
    validate_dataset_balance labels =
      { balanced := decide (colMin (class_proportions labels) /
          colMax (class_proportions labels) ≥ 1 / 10),
        balance_ratio := some (colMin (class_proportions labels) /
          colMax (class_proportions labels)),
        total_samples := some labels.length,
        num_classes := some (class_counts labels).length,
        message := none } := by
  rw [validate_dataset_balance, if_neg hne]
  show ({ balanced := decide ((if colMax (class_proportions labels) > 0 then
              colMin (class_proportions labels) / colMax (class_proportions labels)
            else 0) ≥ 1 / 10),
          balance_ratio := some (if colMax (class_proportions labels) > 0 then
              colMin (class_proportions labels) / colMax (class_proportions labels)
            else 0),
          total_samples := some labels.length,
          num_classes := some (class_counts labels).length,
          message := none } : BalanceResult) = _
  rw [if_pos hpos]

theorem tenToOne_eval :
    (validate_dataset_balance tenToOne).balance_ratio = some (1 / 10) ∧
    (validate_dataset_balance tenToOne).balanced = true := by
  have hcc : class_counts tenToOne = [("circle", 10), ("square", 1)] := by decide
  have hlen : tenToOne.length = 11 := by decide
  have hcp : class_proportions tenToOne = [(10 : ℚ) / 11, 1 / 11] := by
    simp only [class_proportions, hcc, hlen, List.map_cons, List.map_nil]
    norm_num
  have hmin : colMin (class_proportions tenToOne) = 1 / 11 := by
    rw [hcp]
    show min ((10 : ℚ) / 11) (1 / 11) = 1 / 11
    norm_num [min_def]
  have hmax : colMax (class_proportions tenToOne) = 10 / 11 := by
    rw [hcp]
    show max ((10 : ℚ) / 11) (1 / 11) = 10 / 11
    norm_num [max_def]
  rw [validate_dataset_balance_eval tenToOne (by decide) (by rw [hmax]; norm_num)]
  constructor
  · show some (colMin (class_proportions tenToOne) / colMax (class_proportions tenToOne)) = _
    rw [hmin, hmax]
    norm_num
  · exact decide_eq_true (by rw [ge_iff_le, hmin, hmax]; norm_num)

theorem nineToOne_eval :
    (validate_dataset_balance nineToOne).balance_ratio = some (1 / 9) ∧
    (validate_dataset_balance nineToOne).balanced = true := by
  have hcc : class_counts nineToOne = [("circle", 9), ("square", 1)] := by decide
  have hlen : nineToOne.length = 10 := by decide
  have hcp : class_proportions nineToOne = [(9 : ℚ) / 10, 1 / 10] := by
    simp only [class_proportions, hcc, hlen, List.map_cons, List.map_nil]
    norm_num
  have hmin : colMin (class_proportions nineToOne) = 1 / 10 := by
    rw [hcp]
    show min ((9 : ℚ) / 10) (1 / 10) = 1 / 10
    norm_num [min_def]
  have hmax : colMax (class_proportions nineToOne) = 9 / 10 := by
    rw [hcp]
    show max ((9 : ℚ) / 10) (1 / 10) = 9 / 10
    norm_num [max_def]
  rw [validate_dataset_balance_eval nineToOne (by decide) (by rw [hmax]; norm_num)]
  constructor
  · show some (colMin (class_proportions nineToOne) / colMax (class_proportions nineToOne)) = _
    rw [hmin, hmax]
    norm_num
  · exact decide_eq_true (by rw [ge_iff_le, hmin, hmax]; norm_num)

theorem elevenToOne_eval :
    (validate_dataset_balance elevenToOne).balance_ratio = some (1 / 11) ∧
    (validate_dataset_balance elevenToOne).balanced = false := by
  have hcc : class_counts elevenToOne = [("circle", 11), ("square", 1)] := by decide
  have hlen : elevenToOne.length = 12 := by decide
  have hcp : class_proportions elevenToOne = [(11 : ℚ) / 12, 1 / 12] := by
    simp only [class_proportions, hcc, hlen, List.map_cons, List.map_nil]
    norm_num
  have hmin : colMin (class_proportions elevenToOne) = 1 / 12 := by
    rw [hcp]
    show min ((11 : ℚ) / 12) (1 / 12) = 1 / 12
    norm_num [min_def]
  have hmax : colMax (class_proportions elevenToOne) = 11 / 12 := by
    rw [hcp]
    show max ((11 : ℚ) / 12) (1 / 12) = 11 / 12
    norm_num [max_def]
  rw [validate_dataset_balance_eval elevenToOne (by decide) (by rw [hmax]; norm_num)]
  constructor
  · show some (colMin (class_proportions elevenToOne) / colMax (class_proportions elevenToOne)) = _
    rw [hmin, hmax]
    norm_num
  · exact decide_eq_false (by rw [ge_iff_le, hmin, hmax]; norm_num)

/-- C8: `balance_ratio` is the smallest class proportion divided by the
largest, `balanced` holds exactly when the ratio is at least `0.1`
(boundary inclusive), and the three reference datasets evaluate as the
claim states: 10-vs-1 gives ratio `1/10` and is balanced, 9-vs-1 gives
`1/9` and is balanced, 11-vs-1 gives `1/11` and is not. -/
theorem validate_dataset_balance_spec :
    (validate_dataset_balance tenToOne).balance_ratio = some (1 / 10) ∧
    (validate_dataset_balance tenToOne).balanced = true ∧
    (validate_dataset_balance nineToOne).balance_ratio = some (1 / 9) ∧
    (validate_dataset_balance nineToOne).balanced = true ∧
    (validate_dataset_balance elevenToOne).balance_ratio = some (1 / 11) ∧
    (validate_dataset_balance elevenToOne).balanced = false ∧
    ∀ (s : String) (rest : List String),
      ∃ mn mx : ℚ,
        IsLeast {q | q ∈ class_proportions (s :: rest)} mn ∧
        IsGreatest {q | q ∈ class_proportions (s :: rest)} mx ∧
        (validate_dataset_balance (s :: rest)).balance_ratio = some (mn / mx) ∧
        ((validate_dataset_balance (s :: rest)).balanced = true ↔
          1 / 10 ≤ mn / mx) :=
  ⟨tenToOne_eval.1, tenToOne_eval.2, nineToOne_eval.1, nineToOne_eval.2,
    elevenToOne_eval.1, elevenToOne_eval.2, balance_formula_aux⟩

/-- C8 witness: the formulaic part evaluated at a concrete two-label
dataset, together with the boundary dataset's ratio. -/
theorem validate_dataset_balance_spec_witness :
    (validate_dataset_balance tenToOne).balance_ratio = some (1 / 10) ∧
    ∃ mn mx : ℚ,
      IsLeast {q | q ∈ class_proportions ("circle" :: ["square"])} mn ∧
      IsGreatest {q | q ∈ class_proportions ("circle" :: ["square"])} mx ∧
      (validate_dataset_balance ("circle" :: ["square"])).balance_ratio =
        some (mn / mx) ∧
      ((validate_dataset_balance ("circle" :: ["square"])).balanced = true ↔
        1 / 10 ≤ mn / mx) :=
  ⟨validate_dataset_balance_spec.1,
    validate_dataset_balance_spec.2.2.2.2.2.2 "circle" ["square"]⟩

end Balance

/-! ## Shape generator (`HighQualityShapeGenerator`)

The generator's `random.choice` / `random.uniform` / `random.randint` /
`np.random.normal` draws are supplied by an explicit oracle structure
`Rng`; each field stands for one draw site in the source.  `Rng.Wf` records
the fragment of the random API's contract that the theorems rely on
(`random.uniform(a, b)` returns a value in `[a, b]`).  The canvas size is
the constructor default `(512, 512)` and the noise level the default
`0.02`, as instantiated in the source. -/

namespace Generator

/-- `variation_params`: the optional per-call configuration mapping; one
recognized key per category (`'line_type'`, `'circle_type'`, `'rect_type'`,
`'triangle_type'`). -/
structure Params where
  line_type : Option String
  circle_type : Option String
  rect_type : Option String
  triangle_type : Option String

/-- One field per random draw site of the generator and of
`_add_human_variations`. -/
structure Rng where
  lineTypeChoice : String
  startU1 : ℝ
  startU2 : ℝ
  lineLength : ℝ
  lineAngle : ℝ
  numPointsStraight : ℕ
  numPointsCurved : ℕ
  curveStrength : ℝ
  numDashes : ℕ
  dashPts : ℕ → ℕ
  circleTypeChoice : String
  centerU1 : ℝ
  centerU2 : ℝ
  radius : ℝ
  numPointsCircle : ℕ
  wobbleHarmonic : ℕ
  wobblePhase : ℝ
  spiralTurns : ℝ
  spiralFactor : ℝ
  completion : ℝ
  rectTypeChoice : String
  rcenterU1 : ℝ
  rcenterU2 : ℝ
  rectWidth : ℝ
  rectHeight : ℝ
  tiltAngle : ℝ
  edgePts : ℕ → ℕ
  triTypeChoice : String
  tcenterU1 : ℝ
  tcenterU2 : ℝ
  triSize : ℝ
  baseAngle : ℝ
  leg1F : ℝ
  leg2F : ℝ
  scalX : ℕ → ℝ
  scalY : ℕ → ℝ
  triEdgePts : ℕ → ℕ
  drawingSpeed : ℝ
  tremorStrength : ℝ
  noise : ℕ → R2
  tremor : ℕ → R2
  pressure : ℕ → ℝ

/-- The part of the random-API contract the theorems use:
`drawing_speed = random.uniform(0.5, 2.0)` lies in `[0.5, 2.0]`. -/
def Rng.Wf (r : Rng) : Prop := 1 / 2 ≤ r.drawingSpeed ∧ r.drawingSpeed ≤ 2

/-- `np.linspace(a, b, n)`: `n` evenly spaced samples from `a` to `b`
inclusive. -/
noncomputable def linspace (a b : ℝ) (n : ℕ) : List ℝ :=
  (List.range n).map fun i => a + (b - a) * i / (n - 1)

/-- Linear interpolation `start + t * (end - start)` of two points. -/
noncomputable def lerp (s e : R2) (t : ℝ) : R2 :=
  (s.1 + t * (e.1 - s.1), s.2 + t * (e.2 - s.2))

/-- `HighQualityShapeGenerator._generate_line_variations`. -/
noncomputable def generate_line_variations (params : Params) (r : Rng) :
    List R2 × Metadata :=
  let line_types := params.line_type.getD r.lineTypeChoice
  let start : R2 := (r.startU1 * 512, r.startU2 * 512)
  let length := r.lineLength
  let angle := r.lineAngle
  let stop : R2 := (start.1 + length * Real.cos angle, start.2 + length * Real.sin angle)
  let points :=
    if line_types = "straight" then
      (linspace 0 1 r.numPointsStraight).map (lerp start stop)
    else if line_types = "slightly_curved" then
      let curve := fun t : ℝ => r.curveStrength * length * Real.sin (Real.pi * t)
      let perp0 : R2 := (-(stop.2 - start.2), stop.1 - start.1)
      let nrm := Real.sqrt (perp0.1 ^ 2 + perp0.2 ^ 2) + 1 / 100000000
      let perp : R2 := (perp0.1 / nrm, perp0.2 / nrm)
      (linspace 0 1 r.numPointsCurved).map fun t =>
        ((lerp start stop t).1 + curve t * perp.1, (lerp start stop t).2 + curve t * perp.2)
    else -- dashed: 60% line, 40% gap per dash cycle
      (List.range r.numDashes).flatMap fun i =>
        let dash_start := (i : ℝ) / r.numDashes
        let dash_end := min ((i + 6 / 10) / r.numDashes) 1
        (linspace dash_start dash_end (r.dashPts i)).map (lerp start stop)
  (points,
    [("line_type", .str line_types), ("length", .num length),
     ("angle", .num angle), ("drawing_speed", .num r.drawingSpeed)])

/-- `HighQualityShapeGenerator._generate_circle_variations`. -/
noncomputable def generate_circle_variations (params : Params) (r : Rng) :
    List R2 × Metadata :=
  let circle_type := params.circle_type.getD r.circleTypeChoice
  let center : R2 := (r.centerU1 * 512, r.centerU2 * 512)
  let radius := r.radius
  let n := r.numPointsCircle
  let points :=
    if circle_type = "perfect" then
      (linspace 0 (2 * Real.pi) n).map fun θ =>
        (center.1 + radius * Real.cos θ, center.2 + radius * Real.sin θ)
    else if circle_type = "wobbly" then
      (linspace 0 (2 * Real.pi) n).map fun θ =>
        let wobble := radius * (1 / 10) * Real.sin (θ * r.wobbleHarmonic + r.wobblePhase)
        (center.1 + (radius + wobble) * Real.cos θ, center.2 + (radius + wobble) * Real.sin θ)
    else -- spiral
      let maxAngle := 2 * Real.pi * r.spiralTurns
      (linspace 0 maxAngle n).map fun θ =>
        let ar := radius * (1 - r.spiralFactor * (θ / maxAngle) * (3 / 10))
        (center.1 + ar * Real.cos θ, center.2 + ar * Real.sin θ)
  (points,
    [("circle_type", .str circle_type), ("radius", .num radius),
     ("center", .nums [center.1, center.2]), ("completion", .num r.completion)])

/-- `HighQualityShapeGenerator._generate_rectangle_variations`. -/
noncomputable def generate_rectangle_variations (params : Params) (r : Rng) :
    List R2 × Metadata :=
  let rect_type := params.rect_type.getD r.rectTypeChoice
  let center : R2 := (r.rcenterU1 * 512, r.rcenterU2 * 512)
  let w := r.rectWidth
  let h := r.rectHeight
  let base : List R2 :=
    [(-w / 2, -h / 2), (w / 2, -h / 2), (w / 2, h / 2), (-w / 2, h / 2), (-w / 2, -h / 2)]
  let rotated := if rect_type = "tilted" then
      base.map fun p =>
        (p.1 * Real.cos r.tiltAngle - p.2 * Real.sin r.tiltAngle,
         p.1 * Real.sin r.tiltAngle + p.2 * Real.cos r.tiltAngle)
    else base
  let corners := rotated.map fun p => (p.1 + center.1, p.2 + center.2)
  let points := (List.range 4).flatMap fun i =>
    let s := corners.getD i (0, 0)
    let e := corners.getD (i + 1) (0, 0)
    if rect_type = "rounded_corners" ∧ i < 4 then
      -- partial edge only (`linspace(0, 0.8, …)`); the arc itself is left
      -- unimplemented in the source
      (linspace 0 (8 / 10) (r.edgePts i)).map (lerp s e)
    else
      (linspace 0 1 (r.edgePts i)).map (lerp s e)
  (points,
    [("rect_type", .str rect_type), ("width", .num w),
     ("height", .num h), ("aspect_ratio", .num (w / h))])

/-- `HighQualityShapeGenerator._generate_triangle_variations`. -/
noncomputable def generate_triangle_variations (params : Params) (r : Rng) :
    List R2 × Metadata :=
  let triangle_type := params.triangle_type.getD r.triTypeChoice
  let center : R2 := (r.tcenterU1 * 512, r.tcenterU2 * 512)
  let size := r.triSize
  let vertices : List R2 :=
    if triangle_type = "equilateral" then
      [(0 : ℝ), 2 * Real.pi / 3, 4 * Real.pi / 3].map fun θ =>
        (center.1 + size * Real.cos θ, center.2 + size * Real.sin θ)
    else if triangle_type = "isosceles" then
      [(center.1, center.2 + size),
       (center.1 - size * Real.sin r.baseAngle, center.2 - size * Real.cos r.baseAngle),
       (center.1 + size * Real.sin r.baseAngle, center.2 - size * Real.cos r.baseAngle)]
    else if triangle_type = "right" then
      [(center.1, center.2), (center.1 + size * r.leg1F, center.2),
       (center.1, center.2 + size * r.leg2F)]
    else -- scalene
      (List.range 3).map fun i => (center.1 + r.scalX i, center.2 + r.scalY i)
  let closed := vertices ++ [vertices.getD 0 (0, 0)]
  let points := (List.range 3).flatMap fun i =>
    (linspace 0 1 (r.triEdgePts i)).map (lerp (closed.getD i (0, 0)) (closed.getD (i + 1) (0, 0)))
  (points,
    [("triangle_type", .str triangle_type), ("size", .num size),
     ("vertices", .pts vertices)])

/-- `HighQualityShapeGenerator._add_human_variations`: speed-dependent
Gaussian jitter plus tremor, and a per-point `'pressure'` series appended
to the metadata.  A no-op on an empty point set.  The base noise level is
the constructor default `0.02`; normal draws come from the oracle scaled
by the computed standard deviations. -/
noncomputable def add_human_variations (points : List R2) (metadata : Metadata)
    (r : Rng) : List R2 × Metadata :=
  if points.length = 0 then (points, metadata)
  else
    let drawing_speed : ℝ :=
      match mget metadata "drawing_speed" with
      | some (.num x) => x
      | _ => 1
    let speed_noise := (2 / 100) * (2 - drawing_speed)
    let tremor_scale := (2 / 100) * (3 / 10) * r.tremorStrength
    let newPoints := (points.zip (List.range points.length)).map fun pi =>
      (pi.1.1 + speed_noise * (r.noise pi.2).1 + tremor_scale * (r.tremor pi.2).1,
       pi.1.2 + speed_noise * (r.noise pi.2).2 + tremor_scale * (r.tremor pi.2).2)
    let newMetadata := mset metadata "pressure"
      (.nums ((List.range points.length).map r.pressure))
    (newPoints, newMetadata)

/-- `generate_shape`'s failure modes: the explicit
`ValueError("Unknown shape type: …")` guard, and the `TypeError` raised
when the per-category generator returns `None` (the six stubs) and the
caller unpacks `points, metadata = generator_func(…)`. -/
inductive GenError where
  | unknownShape (s : String)
  | noneUnpack
deriving DecidableEq

/-- `self.shape_categories`: the dispatch table from category name to
sub-style generator.  The six stub generators (`pass` bodies) return
`none` (Python `None`). -/
noncomputable def shape_categories :
    List (String × (Params → Rng → Option (List R2 × Metadata))) :=
  [("line", fun p r => some (generate_line_variations p r)),
   ("rectangle", fun p r => some (generate_rectangle_variations p r)),
   ("circle", fun p r => some (generate_circle_variations p r)),
   ("triangle", fun p r => some (generate_triangle_variations p r)),
   ("arrow", fun _ _ => none),
   ("star", fun _ _ => none),
   ("diamond", fun _ _ => none),
   ("oval", fun _ _ => none),
   ("pentagon", fun _ _ => none),
   ("hexagon", fun _ _ => none)]

/-- `HighQualityShapeGenerator.generate_shape`: dispatch on the category,
unpack the generator's result, run the human-variation pass, and build the
`StrokeData`. -/
noncomputable def generate_shape (shape_type : String) (params : Params)
    (r : Rng) : Except GenError StrokeData :=
  match (shape_categories.find? fun kv => kv.1 = shape_type).map (fun kv => kv.2) with
  | none => .error (.unknownShape shape_type)
  | some generator_func =>
    match generator_func params r with
    | none => .error .noneUnpack
    | some (pts, md) =>
      let hv := add_human_variations pts md r
      .ok { points := hv.1, shape_label := shape_type, metadata := hv.2 }

/-- The declared category set, in table order. -/
def category_names : List String :=
  ["line", "rectangle", "circle", "triangle", "arrow", "star", "diamond",
   "oval", "pentagon", "hexagon"]

theorem find?_key_eq_none {α : Type*} (l : List (String × α)) (s : String) :
    (l.find? fun kv => kv.1 = s) = none ↔ s ∉ l.map Prod.fst := by
  rw [List.find?_eq_none]
  constructor
  · intro h hmem
    obtain ⟨kv, hkv, he⟩ := List.mem_map.mp hmem
    exact h kv hkv (by simp [he])
  · intro h kv hkv
    simp only [decide_eq_true_eq]
    intro he
    exact h (List.mem_map.mpr ⟨kv, hkv, he⟩)

theorem find?_shape_categories_eq_none (shape_type : String) :
    (shape_categories.find? fun kv => kv.1 = shape_type) = none ↔
      shape_type ∉ category_names := by
  have h := find?_key_eq_none shape_categories shape_type
  rwa [show shape_categories.map Prod.fst = category_names from rfl] at h

/-- C7: `generate_shape` fails with the `Unknown shape type` `ValueError`
exactly when the requested category is outside the fixed ten-element
category set; members of the set never produce that error (the six stub
members fail differently, with a `None`-unpacking `TypeError`). -/
theorem generate_shape_unknown_iff (shape_type : String) (params : Params)
    (r : Rng) :
    (∃ e, generate_shape shape_type params r = .error (.unknownShape e)) ↔
      shape_type ∉ category_names := by
  rw [← find?_shape_categories_eq_none shape_type]
  cases hfind : (shape_categories.find? fun kv => kv.1 = shape_type) with
  | none =>
    have hgen : generate_shape shape_type params r = .error (.unknownShape shape_type) := by
      simp only [generate_shape, hfind, Option.map_none']
    exact ⟨fun _ => rfl, fun _ => ⟨shape_type, hgen⟩⟩
  | some kv =>
    simp only [generate_shape, hfind, Option.map_some']
    constructor
    · rintro ⟨e, he⟩
      cases hgen : kv.2 params r with
      | none =>
        rw [hgen] at he
        simp at he
      | some pm =>
        obtain ⟨pts, md⟩ := pm
        rw [hgen] at he
        simp at he
    · intro h
      simp at h

/-- Empty `variation_params` (the `params or {}` default). -/
def params0 : Params := ⟨none, none, none, none⟩

/-- A concrete, wellformed oracle: every uniform draw is `1`, every
integer draw is `4`, every choice is the first list element. -/
noncomputable def rng0 : Rng where
  lineTypeChoice := "straight"
  startU1 := 1
  startU2 := 1
  lineLength := 1
  lineAngle := 1
  numPointsStraight := 4
  numPointsCurved := 4
  curveStrength := 1
  numDashes := 4
  dashPts := fun _ => 4
  circleTypeChoice := "perfect"
  centerU1 := 1
  centerU2 := 1
  radius := 1
  numPointsCircle := 4
  wobbleHarmonic := 4
  wobblePhase := 1
  spiralTurns := 1
  spiralFactor := 1
  completion := 1
  rectTypeChoice := "sharp_corners"
  rcenterU1 := 1
  rcenterU2 := 1
  rectWidth := 1
  rectHeight := 1
  tiltAngle := 1
  edgePts := fun _ => 4
  triTypeChoice := "equilateral"
  tcenterU1 := 1
  tcenterU2 := 1
  triSize := 1
  baseAngle := 1
  leg1F := 1
  leg2F := 1
  scalX := fun _ => 1
  scalY := fun _ => 1
  triEdgePts := fun _ => 4
  drawingSpeed := 1
  tremorStrength := 1
  noise := fun _ => (1, 1)
  tremor := fun _ => (1, 1)
  pressure := fun _ => 1

theorem rng0_wf : rng0.Wf := by
  constructor <;> norm_num [rng0]

/-- C7 witness: a category outside the set fails with the unknown-category
error; a member of the set does not. -/
theorem generate_shape_unknown_iff_witness :
    (∃ e, generate_shape "squiggle" params0 rng0 = .error (.unknownShape e)) ∧
    ¬ ∃ e, generate_shape "line" params0 rng0 = .error (.unknownShape e) := by
  constructor
  · exact (generate_shape_unknown_iff "squiggle" params0 rng0).mpr (by decide)
  · intro h
    exact absurd ((generate_shape_unknown_iff "line" params0 rng0).mp h) (by decide)

/-- C4 counterexample: requesting the declared-but-stubbed category
`"arrow"` does *not* yield an empty stroke — `generate_shape` fails with
the `TypeError` of unpacking the stub's `None` return, and no `StrokeData`
(empty or otherwise) is produced. -/
theorem generate_shape_arrow_stub_cex :
    generate_shape "arrow" params0 rng0 = .error .noneUnpack ∧
    ∀ s : StrokeData, generate_shape "arrow" params0 rng0 ≠ .ok s := by
  have h : generate_shape "arrow" params0 rng0 = .error .noneUnpack := rfl
  exact ⟨h, fun s hs => by rw [h] at hs; cases hs⟩

/-- C4 (amended): for every declared category without a real implementation
(arrow, star, diamond, oval, pentagon, hexagon) and all parameters and
draws, `generate` fails with the `None`-unpacking `TypeError` — it raises
rather than returning an empty-point stroke. -/
theorem generate_shape_stub_error (c : String) (params : Params) (r : Rng)
    (h : c ∈ ["arrow", "star", "diamond", "oval", "pentagon", "hexagon"]) :
    generate_shape c params r = .error .noneUnpack := by
  fin_cases h <;> rfl

/-- C4 witness: the stub category `"star"` at concrete parameters. -/
theorem generate_shape_stub_error_witness :
    "star" ∈ ["arrow", "star", "diamond", "oval", "pentagon", "hexagon"] ∧
    generate_shape "star" params0 rng0 = .error .noneUnpack :=
  ⟨by decide, generate_shape_stub_error "star" params0 rng0 (by decide)⟩

/-- C6 (amended): under the uniform-draw contract, the *line* generator's
metadata carries the chosen sub-style and a `'drawing_speed'` key whose
value lies in `[0.5, 2.0]`; the circle, rectangle and triangle generators
carry their chosen sub-style but **no** `'drawing_speed'` key at all (the
Human Variation Simulator then falls back to its default speed `1.0`). -/
theorem generator_metadata_drawing_speed (params : Params) (r : Rng)
    (h : r.Wf) :
    (generate_line_variations params r).2.map Prod.fst =
      ["line_type", "length", "angle", "drawing_speed"] ∧
    mget (generate_line_variations params r).2 "line_type" =
      some (.str (params.line_type.getD r.lineTypeChoice)) ∧
    mget (generate_line_variations params r).2 "drawing_speed" =
      some (.num r.drawingSpeed) ∧
    (1 / 2 ≤ r.drawingSpeed ∧ r.drawingSpeed ≤ 2) ∧
    mget (generate_circle_variations params r).2 "circle_type" =
      some (.str (params.circle_type.getD r.circleTypeChoice)) ∧
    mget (generate_circle_variations params r).2 "drawing_speed" = none ∧
    mget (generate_rectangle_variations params r).2 "rect_type" =
      some (.str (params.rect_type.getD r.rectTypeChoice)) ∧
    mget (generate_rectangle_variations params r).2 "drawing_speed" = none ∧
    mget (generate_triangle_variations params r).2 "triangle_type" =
      some (.str (params.triangle_type.getD r.triTypeChoice)) ∧
    mget (generate_triangle_variations params r).2 "drawing_speed" = none :=
  ⟨rfl, rfl, rfl, h, rfl, rfl, rfl, rfl, rfl, rfl⟩

/-- C6 witness: the amended statement's line/circle parts at the concrete
wellformed oracle `rng0`. -/
theorem generator_metadata_drawing_speed_witness :
    rng0.Wf ∧
    mget (generate_line_variations params0 rng0).2 "drawing_speed" =
      some (.num rng0.drawingSpeed) ∧
    mget (generate_circle_variations params0 rng0).2 "drawing_speed" = none :=
  ⟨rng0_wf, (generator_metadata_drawing_speed params0 rng0 rng0_wf).2.2.1,
    (generator_metadata_drawing_speed params0 rng0 rng0_wf).2.2.2.2.2.1⟩

/-- C6 counterexample: at the concrete wellformed oracle `rng0`, the
stroke that `generate` returns for the implemented category `"circle"`
carries no `'drawing_speed'` key in its metadata, contradicting the claim
for that category. -/
theorem generate_circle_no_drawing_speed_cex :
    rng0.Wf ∧
    (generate_shape "circle" params0 rng0).toOption.map
      (fun s => mget s.metadata "drawing_speed") = some none :=
  ⟨rng0_wf, rfl⟩

end Generator

/-! ## Augmentation pipeline (`RealWorldDataAugmenter`)

`augment_stroke` clones the input (`points.copy()` / `metadata.copy()`)
per variant and pipes each clone through a randomly sampled, order
preserving subset of the transform list `self.augmentations`.  The random
subset choice is supplied per iteration by an oracle `pick`, and the
transform list itself is a parameter (it is plain data on the Python
object); `_add_gaps`, the transform claim C10 is about, is embedded in
full below. -/

namespace Augmenter

/-- The clone `StrokeData(points=stroke.points.copy(), …)` built for each
variant; in this by-value embedding cloning is field-wise identity. -/
def clone_stroke (stroke : StrokeData) : StrokeData :=
  { points := stroke.points, shape_label := stroke.shape_label,
    metadata := stroke.metadata }

/-- `RealWorldDataAugmenter.augment_stroke`: the untouched original first,
then `num_augmentations` variants, each obtained by folding the selected
transforms (indices into `augmentations`, chosen by `random.sample` —
supplied here by the oracle `pick`) over a fresh clone of the input. -/
def augment_stroke (augmentations : List (StrokeData → StrokeData))
    (stroke : StrokeData) (num_augmentations : ℕ) (pick : ℕ → List ℕ) :
    List StrokeData :=
  stroke :: (List.range num_augmentations).map fun i =>
    ((pick i).map fun j => augmentations.getD j id).foldl
      (fun s f => f s) (clone_stroke stroke)

theorem clone_stroke_eq (stroke : StrokeData) : clone_stroke stroke = stroke := rfl

/-- C2: for every transform list, input stroke, count `n ≥ 0` and random
subset choice, `augment_stroke` returns exactly `n + 1` strokes; the first
is the original object itself (hence pointwise-identical to the input,
which — all transforms operating on by-value clones — is left unchanged);
and every later entry is built by folding the chosen transforms over a
clone of the input. -/
theorem augment_stroke_contract (augmentations : List (StrokeData → StrokeData))
    (stroke : StrokeData) (n : ℕ) (pick : ℕ → List ℕ) :
    (augment_stroke augmentations stroke n pick).length = n + 1 ∧
    (augment_stroke augmentations stroke n pick).head? = some stroke ∧
    clone_stroke stroke = stroke ∧
    ∀ i < n, (augment_stroke augmentations stroke n pick).getD (i + 1) stroke =
      ((pick i).map fun j => augmentations.getD j id).foldl
        (fun s f => f s) (clone_stroke stroke) := by
  refine ⟨by simp [augment_stroke], rfl, rfl, ?_⟩
  intro i hi
  rw [augment_stroke, List.getD_cons_succ]
  rw [List.getD_eq_getElem _ _ (by simpa using hi)]
  simp

/-- C2 witness: a concrete stroke, transform list and count. -/
theorem augment_stroke_contract_witness :
    (augment_stroke [] ⟨[((0 : ℝ), 0)], "line", []⟩ 3 fun _ => []).length = 3 + 1 ∧
    (augment_stroke [] ⟨[((0 : ℝ), 0)], "line", []⟩ 3 fun _ => []).head? =
      some ⟨[((0 : ℝ), 0)], "line", []⟩ ∧
    (augment_stroke [] ⟨[((0 : ℝ), 0)], "line", []⟩ 3 fun _ => []).getD 1
      ⟨[((0 : ℝ), 0)], "line", []⟩ = clone_stroke ⟨[((0 : ℝ), 0)], "line", []⟩ := by
  obtain ⟨h1, h2, -, h4⟩ :=
    augment_stroke_contract [] ⟨[((0 : ℝ), 0)], "line", []⟩ 3 fun _ => []
  exact ⟨h1, h2, by simpa using h4 0 (by norm_num)⟩

/-- One gap-removal pass of `_add_gaps`: draw
`gap_start = random.randint(0, len(points) - 5)` (a `ValueError`, modelled
as `none`, if `len(points) - 5 < 0`) and `gap_length = random.randint(2, 5)`,
and cut `points[gap_start : min(gap_start + gap_length, len(points))]`. -/
def gap_once (points : List R2) (dStart dLen : ℕ) : Option (List R2) :=
  if points.length < 5 then none
  else
    let gap_start := dStart % (points.length - 5 + 1)
    let gap_length := 2 + dLen % 4
    let gap_end := min (gap_start + gap_length) points.length
    some (points.take gap_start ++ points.drop gap_end)

/-- `RealWorldDataAugmenter._add_gaps`: strokes with fewer than 10 points
pass through; otherwise `num_gaps = random.randint(0, 2)` contiguous
ranges are cut in sequence, and the `'augmentation'` tag is overwritten
with `'gaps'`.  The draw stream `ds` supplies `ds 0` for `num_gaps` and
`ds (2i+1)`, `ds (2i+2)` for the `i`-th range's start and length. -/
def add_gaps (stroke : StrokeData) (ds : ℕ → ℕ) : Option StrokeData :=
  if stroke.points.length < 10 then some stroke
  else
    let num_gaps := ds 0 % 3
    ((List.range num_gaps).foldl
      (fun acc i => acc.bind fun pts => gap_once pts (ds (2 * i + 1)) (ds (2 * i + 2)))
      (some stroke.points)).map fun pts =>
      { stroke with
        points := pts
        metadata := mset stroke.metadata "augmentation" (.str "gaps") }

theorem gap_once_spec (points : List R2) (dStart dLen : ℕ)
    (h : 5 ≤ points.length) :
    ∃ out, gap_once points dStart dLen = some out ∧
      points.length - 5 ≤ out.length ∧ out.length ≤ points.length := by
  rw [gap_once, if_neg (not_lt.mpr h)]
  refine ⟨_, rfl, ?_, ?_⟩ <;>
    · simp only [List.length_append, List.length_take, List.length_drop]
      have hs : dStart % (points.length - 5 + 1) ≤ points.length - 5 :=
        Nat.le_of_lt_succ (Nat.mod_lt _ (Nat.succ_pos _))
      have hl : dLen % 4 < 4 := Nat.mod_lt _ (by norm_num)
      omega

theorem add_gaps_zero_gaps (stroke : StrokeData) (ds : ℕ → ℕ)
    (h : ¬ stroke.points.length < 10) (h0 : ds 0 % 3 = 0) :
    add_gaps stroke ds = some { stroke with
      points := stroke.points
      metadata := mset stroke.metadata "augmentation" (.str "gaps") } := by
  rw [add_gaps, if_neg h]
  simp only [h0]
  rfl

theorem add_gaps_one_gap (stroke : StrokeData) (ds : ℕ → ℕ)
    (h : ¬ stroke.points.length < 10) (h1 : ds 0 % 3 = 1) (out1 : List R2)
    (hg1 : gap_once stroke.points (ds 1) (ds 2) = some out1) :
    add_gaps stroke ds = some { stroke with
      points := out1
      metadata := mset stroke.metadata "augmentation" (.str "gaps") } := by
  rw [add_gaps, if_neg h]
  simp only [h1]
  rw [show List.range 1 = [0] from rfl]
  simp only [List.foldl_cons, List.foldl_nil]
  rw [show ((some stroke.points).bind fun pts =>
      gap_once pts (ds (2 * 0 + 1)) (ds (2 * 0 + 2))) =
    gap_once stroke.points (ds 1) (ds 2) from rfl, hg1]
  rfl

theorem add_gaps_two_gaps (stroke : StrokeData) (ds : ℕ → ℕ)
    (h : ¬ stroke.points.length < 10) (h2 : ds 0 % 3 = 2) (out1 out2 : List R2)
    (hg1 : gap_once stroke.points (ds 1) (ds 2) = some out1)
    (hg2 : gap_once out1 (ds 3) (ds 4) = some out2) :
    add_gaps stroke ds = some { stroke with
      points := out2
      metadata := mset stroke.metadata "augmentation" (.str "gaps") } := by
  rw [add_gaps, if_neg h]
  simp only [h2]
  rw [show List.range 2 = [0, 1] from rfl]
  simp only [List.foldl_cons, List.foldl_nil]
  rw [show ((some stroke.points).bind fun pts =>
      gap_once pts (ds (2 * 0 + 1)) (ds (2 * 0 + 2))) =
    gap_once stroke.points (ds 1) (ds 2) from rfl, hg1]
  rw [show ((some out1).bind fun pts =>
      gap_once pts (ds (2 * 1 + 1)) (ds (2 * 1 + 2))) =
    gap_once out1 (ds 3) (ds 4) from rfl, hg2]
  rfl

/-- C10: on a stroke with at least 10 points, `_add_gaps` never draws from
an empty range (the point count is at least 5 before each of the at most
two cuts, so both `randint` calls are well-defined and nothing indexes out
of bounds — the result is always `some`) and the surviving point count is
at least the original count minus 10 — a bound that allows the output to
drop below the validator's 5-point minimum.  Moreover, for a stroke of
exactly 10 points some draw sequence does reach the empty point
sequence. -/
theorem add_gaps_safe (stroke : StrokeData) (ds : ℕ → ℕ)
    (h : 10 ≤ stroke.points.length) :
    (∃ out, add_gaps stroke ds = some out ∧
      stroke.points.length - 10 ≤ out.points.length ∧
      out.points.length ≤ stroke.points.length) ∧
    (stroke.points.length = 10 →
      ∃ ds10 out, add_gaps stroke ds10 = some out ∧ out.points = []) := by
  have hnl : ¬ stroke.points.length < 10 := not_lt.mpr h
  constructor
  · have h3 : ds 0 % 3 = 0 ∨ ds 0 % 3 = 1 ∨ ds 0 % 3 = 2 := by omega
    rcases h3 with h3 | h3 | h3
    · refine ⟨_, add_gaps_zero_gaps stroke ds hnl h3, ?_, ?_⟩
      · show stroke.points.length - 10 ≤ stroke.points.length
        omega
      · show stroke.points.length ≤ stroke.points.length
        omega
    · obtain ⟨out1, hg1, hlo1, hhi1⟩ := gap_once_spec stroke.points (ds 1) (ds 2) (by omega)
      refine ⟨_, add_gaps_one_gap stroke ds hnl h3 out1 hg1, ?_, ?_⟩
      · show stroke.points.length - 10 ≤ out1.length
        omega
      · show out1.length ≤ stroke.points.length
        omega
    · obtain ⟨out1, hg1, hlo1, hhi1⟩ := gap_once_spec stroke.points (ds 1) (ds 2) (by omega)
      obtain ⟨out2, hg2, hlo2, hhi2⟩ := gap_once_spec out1 (ds 3) (ds 4) (by omega)
      refine ⟨_, add_gaps_two_gaps stroke ds hnl h3 out1 out2 hg1 hg2, ?_, ?_⟩
      · show stroke.points.length - 10 ≤ out2.length
        omega
      · show out2.length ≤ stroke.points.length
        omega
  · intro h10
    -- draws: num_gaps = 2; first cut start 5, length 5; second cut start 0, length 5
    refine ⟨fun n => [2, 5, 3, 0, 3].getD n 0, ?_⟩
    have hg1 : gap_once stroke.points 5 3 = some (stroke.points.take 5) := by
      rw [gap_once, if_neg (by omega)]
      show some (stroke.points.take (5 % (stroke.points.length - 5 + 1)) ++
          stroke.points.drop (min (5 % (stroke.points.length - 5 + 1) + (2 + 3 % 4))
            stroke.points.length)) = some (stroke.points.take 5)
      rw [h10]
      norm_num
      omega
    have hlen5 : (stroke.points.take 5).length = 5 := by
      rw [List.length_take]
      omega
    have hg2 : gap_once (stroke.points.take 5) 0 3 = some [] := by
      rw [gap_once, if_neg (by omega)]
      show some ((stroke.points.take 5).take (0 % ((stroke.points.take 5).length - 5 + 1)) ++
          (stroke.points.take 5).drop (min (0 % ((stroke.points.take 5).length - 5 + 1) +
            (2 + 3 % 4)) (stroke.points.take 5).length)) = some []
      rw [hlen5]
      norm_num
    exact ⟨_, add_gaps_two_gaps stroke _ hnl rfl _ _ hg1 hg2, rfl⟩

/-- C10 witness: a concrete 10-point stroke and draw stream. -/
theorem add_gaps_safe_witness :
    (∃ out, add_gaps ⟨List.replicate 10 ((0 : ℝ), 0), "line", []⟩
        (fun _ => 0) = some out ∧
      ((List.replicate 10 ((0 : ℝ), 0)).length - 10 ≤ out.points.length ∧
        out.points.length ≤ (List.replicate 10 ((0 : ℝ), 0)).length)) ∧
    ∃ ds10 out, add_gaps ⟨List.replicate 10 ((0 : ℝ), 0), "line", []⟩
        ds10 = some out ∧ out.points = [] := by
  obtain ⟨⟨out, h1, h2, h3⟩, hreach⟩ :=
    add_gaps_safe ⟨List.replicate 10 ((0 : ℝ), 0), "line", []⟩
      (fun _ => 0) (by simp)
  exact ⟨⟨out, h1, h2, h3⟩, hreach (by simp)⟩

end Augmenter

end RealtimeWhiteboard
